import Mathlib

/-!
Shallow embedding of the CodeShell flash-attention model loader and forward
control flow (`flash_shell_modeling.py`, `flash_shell.py`).

Tensors are modelled as lists (1-D) and lists of rows (2-D).  Python slicing
`t[a:b]` becomes `drop`/`take`, `t[:, a:b]` maps the slice over the rows, and
`torch.cat(dim=0)` is list append.  A Python call that can raise an uncaught
exception returns an explicit `PyResult`.
-/

namespace FlashShell

/-- Python slice `xs[start:stop]` with non-negative clamped indices. -/
def pySlice {α : Type _} (xs : List α) (start stop : Nat) : List α :=
  (xs.drop start).take (stop - start)

/-- `tensor[start:stop]` on a 2-D tensor stored as a list of rows. -/
def rowSlice {α : Type _} (w : List (List α)) (start stop : Nat) : List (List α) :=
  pySlice w start stop

/-- `tensor[:, start:stop]` on a 2-D tensor stored as a list of rows. -/
def colSlice {α : Type _} (w : List (List α)) (start stop : Nat) : List (List α) :=
  w.map (fun row => pySlice row start stop)

/-- `torch.cat(dim=1)` of two matrices with equally many rows. -/
def hcat2 {α : Type _} (m1 m2 : List (List α)) : List (List α) :=
  List.zipWith (· ++ ·) m1 m2

/-- Horizontal concatenation of a list of matrices, each having `nrows` rows. -/
def hcatAll {α : Type _} (ms : List (List (List α))) (nrows : Nat) : List (List α) :=
  ms.foldr hcat2 (List.replicate nrows [])

/-- `Tensor.repeat_interleave(n)` on a 1-D tensor. -/
def repeatInterleave {α : Type _} (xs : List α) (n : Nat) : List α :=
  xs.flatMap (fun x => List.replicate n x)

/-- The shard context `weights.process_group`: this process's rank and the
world size. -/
structure ProcessGroup where
  rank : Nat
  size : Nat
deriving DecidableEq, Repr

/-- Python exceptions the modelled code can raise. -/
inductive PyError where
  | assertionError
  | valueError
  | zeroDivisionError
  | notImplementedError
deriving DecidableEq, Repr

/-- Outcome of a Python call: an uncaught exception, or a returned value. -/
inductive PyResult (α : Type _) where
  | raised (e : PyError)
  | returned (v : α)
deriving DecidableEq, Repr

/-- `true` when the call returned normally (no exception propagated). -/
def PyResult.isReturned {α : Type _} : PyResult α → Bool
  | .raised _ => false
  | .returned _ => true

/-- The configuration record (`ShellConfig`), restricted to the fields the
modelled code reads.  `quantize` and `transpose` are attached to the object
later by `FlashShell.__init__`; until then they are unset (`none` / `false`). -/
structure ShellConfig where
  vocab_size : Nat
  hidden_size : Nat
  intermediate_size : Nat
  num_hidden_layers : Nat
  num_attention_heads : Nat
  num_key_value_heads : Nat
  hidden_act : String
  quantize : Option String
  transpose : Bool
deriving DecidableEq, Repr

/-- `ShellConfig.__init__`: stores the dimensions; a missing (`None`)
`num_key_value_heads` falls back to `num_attention_heads`. -/
def ShellConfig.init (vocab_size hidden_size intermediate_size num_hidden_layers
    num_attention_heads : Nat) (num_key_value_heads : Option Nat)
    (hidden_act : String) : ShellConfig :=
  { vocab_size := vocab_size
    hidden_size := hidden_size
    intermediate_size := intermediate_size
    num_hidden_layers := num_hidden_layers
    num_attention_heads := num_attention_heads
    num_key_value_heads :=
      match num_key_value_heads with
      | none => num_attention_heads
      | some k => k
    hidden_act := hidden_act
    quantize := none
    transpose := false }

/-- `FlashShell.__init__` line
`config.transpose = config.architectures[0].startswith("GPT2")`:
indexing `architectures[0]` on an empty list raises, modelled as `none`. -/
def setTransposeFlag (architectures : List String) : Option Bool :=
  architectures.head?.map (fun a => a.startsWith "GPT2")

/-- Column-parallel linear layer holding this shard's fused weight and bias. -/
structure TensorParallelColumnLinear (α : Type _) where
  weight : List (List α)
  bias : Option (List α)
deriving DecidableEq, Repr

/-- Row-parallel linear layer holding this shard's weight slice and
(on rank 0 only) the bias. -/
structure TensorParallelRowLinear (α : Type _) where
  weight : List (List α)
  bias : Option (List α)
deriving DecidableEq, Repr

/-- The query slice taken by `_load_attention`: rows (or columns, when the
layout is transposed) `[rank*q_block_size, (rank+1)*q_block_size)`. -/
def attn_q_tensor {α : Type _} (config : ShellConfig) (slice_ : List (List α))
    (q_size world_size rank : Nat) : List (List α) :=
  let q_block_size := q_size / world_size
  let q_start := rank * q_block_size
  let q_stop := (rank + 1) * q_block_size
  if config.transpose then colSlice slice_ q_start q_stop
  else rowSlice slice_ q_start q_stop

/-- The key slice taken by `_load_attention`: offset by `q_size`. -/
def attn_k_tensor {α : Type _} (config : ShellConfig) (slice_ : List (List α))
    (q_size kv_size world_size rank : Nat) : List (List α) :=
  let kv_block_size := kv_size / world_size
  let k_start := q_size + rank * kv_block_size
  let k_stop := q_size + (rank + 1) * kv_block_size
  if config.transpose then colSlice slice_ k_start k_stop
  else rowSlice slice_ k_start k_stop

/-- The value slice taken by `_load_attention`: offset by `q_size + kv_size`. -/
def attn_v_tensor {α : Type _} (config : ShellConfig) (slice_ : List (List α))
    (q_size kv_size world_size rank : Nat) : List (List α) :=
  let kv_block_size := kv_size / world_size
  let v_start := q_size + kv_size + rank * kv_block_size
  let v_stop := q_size + kv_size + (rank + 1) * kv_block_size
  if config.transpose then colSlice slice_ v_start v_stop
  else rowSlice slice_ v_start v_stop

/-- The bias slices taken by `_load_attention` (the 1-D bias vector is sliced
with the same q/k/v index ranges, independent of the layout flag). -/
def attn_bias_tensor {α : Type _} (bias_slice : List α)
    (q_size kv_size world_size rank : Nat) : List α :=
  let q_block_size := q_size / world_size
  let kv_block_size := kv_size / world_size
  pySlice bias_slice (rank * q_block_size) ((rank + 1) * q_block_size)
    ++ pySlice bias_slice (q_size + rank * kv_block_size)
        (q_size + (rank + 1) * kv_block_size)
    ++ pySlice bias_slice (q_size + kv_size + rank * kv_block_size)
        (q_size + kv_size + (rank + 1) * kv_block_size)

/-- `_load_attention`: asserts that `q_size` and `kv_size` are evenly
divisible by the world size, slices the fused `c_attn` weight (and bias, when
requested) into this rank's query/key/value blocks along the axis selected by
`config.transpose`, and concatenates them in q-k-v order. -/
def _load_attention {α : Type _} (config : ShellConfig)
    (c_attn_weight : List (List α)) (c_attn_bias : List α) (bias : Bool)
    (q_size kv_size : Nat) (pg : ProcessGroup) :
    PyResult (TensorParallelColumnLinear α) :=
  let world_size := pg.size
  let rank := pg.rank
  if q_size % world_size ≠ 0 then .raised .assertionError
  else if kv_size % world_size ≠ 0 then .raised .assertionError
  else
    let weight := attn_q_tensor config c_attn_weight q_size world_size rank
      ++ attn_k_tensor config c_attn_weight q_size kv_size world_size rank
      ++ attn_v_tensor config c_attn_weight q_size kv_size world_size rank
    .returned
      { weight := weight
        bias :=
          if bias then
            some (attn_bias_tensor c_attn_bias q_size kv_size world_size rank)
          else none }

/-- `load_attention`: for `config.quantize == "gptq"` the source constructs a
`NotImplementedError` but never raises it (`raise` is missing), so the branch
falls through and the function returns Python `None`; otherwise it defers to
`_load_attention`. -/
def load_attention {α : Type _} (config : ShellConfig)
    (c_attn_weight : List (List α)) (c_attn_bias : List α) (bias : Bool)
    (q_size kv_size : Nat) (pg : ProcessGroup) :
    PyResult (Option (TensorParallelColumnLinear α)) :=
  if config.quantize = some "gptq" then .returned none
  else
    match _load_attention config c_attn_weight c_attn_bias bias q_size kv_size pg with
    | .raised e => .raised e
    | .returned l => .returned (some l)

/-- `load_row`: the shard's weight slice itself comes from the external weight
source (`get_sharded` / `get_multi_weights_row`) and is passed in here; the
bias is attached only when requested and this shard has rank 0. -/
def load_row {α : Type _} (shard_weight : List (List α)) (full_bias : List α)
    (bias : Bool) (pg : ProcessGroup) : TensorParallelRowLinear α :=
  { weight := shard_weight
    bias := if bias = true ∧ pg.rank = 0 then some full_bias else none }

/-- The attention module state built by `FlashShellAttention.__init__`
(head counts are the post-shard values). -/
structure FlashShellAttention (α : Type _) where
  num_heads : Nat
  head_size : Nat
  num_key_value_heads : Nat
  query_key_value : Option (TensorParallelColumnLinear α)
  o_proj : TensorParallelRowLinear α
  num_groups : Nat
  kv_head_mapping : List Nat
deriving DecidableEq, Repr

/-- The grouped-query-attention head mapping built at attention construction:
`torch.arange(0, num_key_value_heads).repeat_interleave(num_groups)`. -/
def kv_head_mapping_of (num_key_value_heads num_groups : Nat) : List Nat :=
  repeatInterleave (List.range num_key_value_heads) num_groups

/-- `FlashShellAttention.__init__`: head-size derivation, the divisibility
check on `num_attention_heads`, per-shard head counts, the fused QKV load, the
row-sharded output projection, and the kv-head mapping.  A Python `//` or `%`
with zero divisor raises `ZeroDivisionError`. -/
def FlashShellAttention.init {α : Type _} (config : ShellConfig)
    (pg : ProcessGroup) (c_attn_weight : List (List α)) (c_attn_bias : List α)
    (c_proj_weight : List (List α)) (c_proj_bias : List α) :
    PyResult (FlashShellAttention α) :=
  if config.num_attention_heads = 0 then .raised .zeroDivisionError
  else
    let head_size := config.hidden_size / config.num_attention_heads
    if pg.size = 0 then .raised .zeroDivisionError
    else if config.num_attention_heads % pg.size ≠ 0 then .raised .valueError
    else
      let num_heads := config.num_attention_heads / pg.size
      let num_key_value_heads := config.num_key_value_heads / pg.size
      let q_size := config.num_attention_heads * head_size
      let kv_size := config.num_key_value_heads * head_size
      match load_attention config c_attn_weight c_attn_bias true q_size kv_size pg with
      | .raised e => .raised e
      | .returned qkv =>
        let o_proj := load_row c_proj_weight c_proj_bias true pg
        if num_key_value_heads = 0 then .raised .zeroDivisionError
        else
          let num_groups := num_heads / num_key_value_heads
          .returned
            { num_heads := num_heads
              head_size := head_size
              num_key_value_heads := num_key_value_heads
              query_key_value := qkv
              o_proj := o_proj
              num_groups := num_groups
              kv_head_mapping := kv_head_mapping_of num_key_value_heads num_groups }

/-- Observable operations of `FlashShellAttention.forward`, in order. -/
inductive AttnEvent where
  | qkvProjection
  | rotaryApply
  | reshapeAndCache (slots : List Nat)
  | flashAttnPrefill
  | pagedAttnDecode
  | oProjection
deriving DecidableEq, Repr

/-- Operation trace of `FlashShellAttention.forward`: fused QKV projection,
rotary application, the unconditional paged-cache write at the caller's slot
indices, then exactly one attention path chosen by whether
`cu_seqlen_prefill` is supplied, then the output projection. -/
def attention_forward_events (cu_seqlen_prefill : Option (List Nat))
    (slots : List Nat) : List AttnEvent :=
  [.qkvProjection, .rotaryApply, .reshapeAndCache slots]
    ++ (match cu_seqlen_prefill with
        | some _ => [.flashAttnPrefill]
        | none => [.pagedAttnDecode])
    ++ [.oProjection]

/-- Tail of `FlashShellForCausalLM.forward`: optionally index-select the
hidden states with `lm_head_indices`, then apply the head projection. -/
def causal_lm_logits {V L : Type _} (hidden_states : List V) (lm_head : V → L)
    (lm_head_indices : Option (List Nat)) : List L :=
  match lm_head_indices with
  | some idx => (idx.filterMap (fun i => hidden_states[i]?)).map lm_head
  | none => hidden_states.map lm_head

/-- Coordinate `i` of one shard's bias contribution to the all-reduced output
of a row-parallel linear layer (absent bias contributes zero). -/
def row_bias_contribution (lr : TensorParallelRowLinear ℤ) (i : Nat) : ℤ :=
  match lr.bias with
  | some v => v.getD i 0
  | none => 0

/-! ## Theorems -/

/-- Claim C2 (code evaluated at the failing input): calling `load_attention`
with the quantization mode configured as `"gptq"` does **not** raise
`NotImplementedError` — the source constructs the exception object without a
`raise` statement, so the call returns Python `None`. -/
theorem claim_C2 {α : Type} (config : ShellConfig)
    (h : config.quantize = some "gptq") (c_attn_weight : List (List α))
    (c_attn_bias : List α) (bias : Bool) (q_size kv_size : Nat)
    (pg : ProcessGroup) :
    load_attention config c_attn_weight c_attn_bias bias q_size kv_size pg
      = PyResult.returned none := by
  simp [load_attention, h]

/-- Witness for C2 at a concrete configuration. -/
theorem claim_C2_witness :
    load_attention
        { vocab_size := 4, hidden_size := 4, intermediate_size := 4
          num_hidden_layers := 1, num_attention_heads := 2
          num_key_value_heads := 2, hidden_act := "gelu"
          quantize := some "gptq", transpose := false }
        ([[(1 : ℤ)]]) [1] true 2 2 ⟨0, 1⟩ = PyResult.returned none :=
  claim_C2 _ rfl _ _ _ _ _ _

/-- Claim C10: a `ShellConfig` built with `num_key_value_heads = None`
sets `num_key_value_heads` equal to `num_attention_heads`, so the default
grouped-query group size `num_attention_heads / num_key_value_heads` is 1
(standard multi-head attention). -/
theorem claim_C10 (vocab_size hidden_size intermediate_size num_hidden_layers
    num_attention_heads : Nat) (hidden_act : String)
    (h : 0 < num_attention_heads) :
    (ShellConfig.init vocab_size hidden_size intermediate_size
        num_hidden_layers num_attention_heads none
        hidden_act).num_key_value_heads = num_attention_heads
    ∧ (ShellConfig.init vocab_size hidden_size intermediate_size
        num_hidden_layers num_attention_heads none
        hidden_act).num_attention_heads
      / (ShellConfig.init vocab_size hidden_size intermediate_size
        num_hidden_layers num_attention_heads none
        hidden_act).num_key_value_heads = 1 := by
  refine ⟨rfl, ?_⟩
  simp [ShellConfig.init]
  exact Nat.div_self h

/-- Witness for C10 at the source defaults (32 attention heads). -/
theorem claim_C10_witness :
    (ShellConfig.init 70144 4096 16384 42 32 none
        "gelu_pytorch_tanh").num_key_value_heads = 32
    ∧ (ShellConfig.init 70144 4096 16384 42 32 none
        "gelu_pytorch_tanh").num_attention_heads
      / (ShellConfig.init 70144 4096 16384 42 32 none
        "gelu_pytorch_tanh").num_key_value_heads = 1 :=
  claim_C10 70144 4096 16384 42 32 "gelu_pytorch_tanh" (by decide)

/-- Claim C9: the transpose flag set at model construction is exactly
"first architecture entry starts with GPT2", and the slicing axis chosen by
the weight-sharding loader depends on the configuration only through that
flag: two configurations agreeing on `transpose` produce identical
query/key/value slices whatever their other fields are. -/
theorem claim_C9 (architectures : List String) (h : architectures ≠ []) :
    setTransposeFlag architectures
      = some ((architectures.head h).startsWith "GPT2")
    ∧ ∀ (α : Type) (c c' : ShellConfig), c.transpose = c'.transpose →
        ∀ (w : List (List α)) (q_size kv_size world_size rank : Nat),
          attn_q_tensor c w q_size world_size rank
              = attn_q_tensor c' w q_size world_size rank
          ∧ attn_k_tensor c w q_size kv_size world_size rank
              = attn_k_tensor c' w q_size kv_size world_size rank
          ∧ attn_v_tensor c w q_size kv_size world_size rank
              = attn_v_tensor c' w q_size kv_size world_size rank := by
  constructor
  · simp [setTransposeFlag, List.head?_eq_head h]
  · intro α c c' hT w q_size kv_size world_size rank
    refine ⟨?_, ?_, ?_⟩ <;>
      simp [attn_q_tensor, attn_k_tensor, attn_v_tensor, hT]

/-- Witness for C9: a GPT2-style architecture list sets the flag to `true`,
and two configurations sharing `transpose := true` slice identically. -/
theorem claim_C9_witness :
    setTransposeFlag ["GPT2LMHeadModel"]
      = some ((["GPT2LMHeadModel"].head (by simp)).startsWith "GPT2")
    ∧ attn_q_tensor
        { vocab_size := 4, hidden_size := 4, intermediate_size := 4
          num_hidden_layers := 1, num_attention_heads := 2
          num_key_value_heads := 2, hidden_act := "gelu"
          quantize := none, transpose := true }
        [[(1 : ℤ), 2]] 2 1 0
      = attn_q_tensor
        { vocab_size := 9, hidden_size := 9, intermediate_size := 9
          num_hidden_layers := 9, num_attention_heads := 9
          num_key_value_heads := 9, hidden_act := "relu"
          quantize := some "awq", transpose := true }
        [[(1 : ℤ), 2]] 2 1 0 :=
  ⟨(claim_C9 ["GPT2LMHeadModel"] (by simp)).1,
   ((claim_C9 ["GPT2LMHeadModel"] (by simp)).2 ℤ _ _ rfl [[(1 : ℤ), 2]] 2 2 1 0).1⟩

/-- Claim C4: `load_row` with bias enabled attaches the bias only on rank 0,
and the summed bias contribution across all shards of the collective
reduction equals exactly one copy of the unsharded bias. -/
theorem claim_C4 (world_size : Nat) (hws : 0 < world_size)
    (shard_weight : Nat → List (List ℤ)) (full_bias : List ℤ) (i : Nat) :
    (∀ rank, (load_row (shard_weight rank) full_bias true
        ⟨rank, world_size⟩).bias
      = (if rank = 0 then some full_bias else none))
    ∧ (Finset.range world_size).sum
        (fun rank => row_bias_contribution
          (load_row (shard_weight rank) full_bias true ⟨rank, world_size⟩) i)
      = full_bias.getD i 0 := by
  constructor
  · intro rank
    simp [load_row]
  · have hsum : ∀ rank, row_bias_contribution
        (load_row (shard_weight rank) full_bias true ⟨rank, world_size⟩) i
        = if rank = 0 then full_bias.getD i 0 else 0 := by
      intro rank
      by_cases h0 : rank = 0 <;> simp [load_row, row_bias_contribution, h0]
    rw [Finset.sum_congr rfl (fun rank _ => hsum rank)]
    rw [Finset.sum_ite_eq' (Finset.range world_size) 0
      (fun _ => full_bias.getD i 0)]
    simp [Finset.mem_range, hws]

/-- Witness for C4 at world size 4: the reduced bias contribution equals the
unsharded bias once, not four times. -/
theorem claim_C4_witness :
    (load_row ([] : List (List ℤ)) [5, 7] true ⟨2, 4⟩).bias
        = (if (2 : Nat) = 0 then some [5, 7] else none)
    ∧ (Finset.range 4).sum
        (fun rank => row_bias_contribution
          (load_row ([] : List (List ℤ)) [5, 7] true ⟨rank, 4⟩) 1)
      = ([5, 7] : List ℤ).getD 1 0 :=
  ⟨(claim_C4 4 (by decide) (fun _ => []) [5, 7] 1).1 2,
   (claim_C4 4 (by decide) (fun _ => []) [5, 7] 1).2⟩

/-- Claim C6: on every attention forward call the new tokens' key/value
vectors are written to the paged cache at the caller-supplied slots
unconditionally, before the attention compute, and exactly one of the two
mutually exclusive attention paths runs — the dense prefill path iff
`cu_seqlen_prefill` is supplied, else the paged decode path. -/
theorem claim_C6 (cu_seqlen_prefill : Option (List Nat)) (slots : List Nat) :
    (attention_forward_events cu_seqlen_prefill slots)[2]?
        = some (.reshapeAndCache slots)
    ∧ ((AttnEvent.flashAttnPrefill ∈ attention_forward_events cu_seqlen_prefill slots
          ∧ AttnEvent.pagedAttnDecode ∉ attention_forward_events cu_seqlen_prefill slots)
        ∨ (AttnEvent.pagedAttnDecode ∈ attention_forward_events cu_seqlen_prefill slots
          ∧ AttnEvent.flashAttnPrefill ∉ attention_forward_events cu_seqlen_prefill slots))
    ∧ (AttnEvent.flashAttnPrefill ∈ attention_forward_events cu_seqlen_prefill slots
        ↔ cu_seqlen_prefill.isSome = true)
    ∧ (AttnEvent.pagedAttnDecode ∈ attention_forward_events cu_seqlen_prefill slots
        ↔ cu_seqlen_prefill = none)
    ∧ (∀ j e, (attention_forward_events cu_seqlen_prefill slots)[j]? = some e →
        (e = AttnEvent.flashAttnPrefill ∨ e = AttnEvent.pagedAttnDecode) →
        2 < j) := by
  refine ⟨?_, ?_, ?_, ?_, ?_⟩
  · cases cu_seqlen_prefill <;> rfl
  · cases cu_seqlen_prefill <;> simp [attention_forward_events]
  · cases cu_seqlen_prefill <;> simp [attention_forward_events]
  · cases cu_seqlen_prefill <;> simp [attention_forward_events]
  · intro j e hj he
    match j, hj with
    | 0, hj =>
      cases cu_seqlen_prefill <;>
        (simp [attention_forward_events] at hj; subst hj; simp at he)
    | 1, hj =>
      cases cu_seqlen_prefill <;>
        (simp [attention_forward_events] at hj; subst hj; simp at he)
    | 2, hj =>
      cases cu_seqlen_prefill <;>
        (simp [attention_forward_events] at hj; subst hj; simp at he)
    | (n + 3), _ => omega

/-- Witness for C6: a prefill call (boundaries supplied) writes the cache at
slot list `[7]` at position 2 of the trace. -/
theorem claim_C6_witness :
    (attention_forward_events (some [0, 3]) [7])[2]?
      = some (.reshapeAndCache [7]) :=
  (claim_C6 (some [0, 3]) [7]).1

/-- Counterexample to claim C3 as stated: with `hidden_size = 8`,
`num_attention_heads = 4`, `num_key_value_heads = 3` and a shard count of 2,
the key/value head count is **not** divisible by the shard count, yet
construction of the attention module succeeds (no error is raised): the
constructor checks only `num_attention_heads`, and the `kv_size` assertion
passes because `3 * head_size = 6` is even. -/
theorem claim_C3_counterexample :
    (3 : Nat) % 2 ≠ 0
    ∧ (FlashShellAttention.init (α := ℤ)
        { vocab_size := 32, hidden_size := 8, intermediate_size := 16
          num_hidden_layers := 1, num_attention_heads := 4
          num_key_value_heads := 3, hidden_act := "gelu"
          quantize := none, transpose := false }
        ⟨0, 2⟩ [] [] [] []).isReturned = true := by
  constructor
  · decide
  · rfl

/-- Claim C3 (amended): construction fails immediately with a `ValueError`
whenever `num_attention_heads` is not evenly divisible by the shard count;
the key/value head count itself is not checked. -/
theorem claim_C3 {α : Type} (config : ShellConfig) (pg : ProcessGroup)
    (hsz : 0 < pg.size)
    (h : config.num_attention_heads % pg.size ≠ 0)
    (c_attn_weight : List (List α)) (c_attn_bias : List α)
    (c_proj_weight : List (List α)) (c_proj_bias : List α) :
    FlashShellAttention.init config pg c_attn_weight c_attn_bias
      c_proj_weight c_proj_bias = PyResult.raised PyError.valueError := by
  have hnz : config.num_attention_heads ≠ 0 := by
    intro h0
    exact h (by simp [h0])
  have hsz' : pg.size ≠ 0 := Nat.pos_iff_ne_zero.mp hsz
  simp [FlashShellAttention.init, hnz, hsz', h]

/-- Witness for C3 (amended): 4 attention heads cannot be split over 3
shards; construction raises the ValueError. -/
theorem claim_C3_witness :
    FlashShellAttention.init (α := ℤ)
        { vocab_size := 32, hidden_size := 8, intermediate_size := 16
          num_hidden_layers := 1, num_attention_heads := 4
          num_key_value_heads := 4, hidden_act := "gelu"
          quantize := none, transpose := false }
        ⟨0, 3⟩ [] [] [] [] = PyResult.raised PyError.valueError :=
  claim_C3 _ _ (by decide) (by decide) [] [] [] []

/-- Indexing a repeat-interleaved list: element `i` is the source element at
index `i / n`. -/
theorem repeatInterleave_getElem? {α : Type _} (xs : List α) (n : Nat) :
    ∀ i, i < xs.length * n → (repeatInterleave xs n)[i]? = xs[i / n]? := by
  induction xs with
  | nil => intro i hi; simp at hi
  | cons x xs ih =>
    intro i hi
    have hn : 0 < n := by
      rcases Nat.eq_zero_or_pos n with h0 | h0
      · subst h0; simp at hi
      · exact h0
    have hrep : repeatInterleave (x :: xs) n
        = List.replicate n x ++ repeatInterleave xs n := by
      simp [repeatInterleave]
    rw [hrep]
    by_cases hlt : i < n
    · rw [List.getElem?_append_left (by simpa using hlt)]
      rw [Nat.div_eq_of_lt hlt]
      simp [List.getElem?_replicate, hlt]
    · push_neg at hlt
      rw [List.getElem?_append_right (by simpa using hlt)]
      have hlen : (List.replicate n x).length = n := List.length_replicate n x
      rw [hlen]
      have hsub : i - n < xs.length * n := by
        have : (x :: xs).length * n = xs.length * n + n := by
          simp [Nat.succ_mul]
        omega
      rw [ih (i - n) hsub]
      have hdiv : i / n = (i - n) / n + 1 := Nat.div_eq_sub_div hn hlt
      rw [hdiv, List.getElem?_cons_succ]

/-- Claim C5: the grouped-query head mapping built at attention construction
is the repeat-interleave schedule with group size
`num_heads / num_key_value_heads`: query head `i` maps to kv head
`i / group_size`; in particular for 8 heads and 2 kv heads the mapping is
`[0, 0, 0, 0, 1, 1, 1, 1]`. -/
theorem claim_C5 (num_heads num_key_value_heads : Nat)
    (hdvd : num_key_value_heads ∣ num_heads) :
    (∀ i, i < num_heads →
      (kv_head_mapping_of num_key_value_heads
          (num_heads / num_key_value_heads))[i]?
        = some (i / (num_heads / num_key_value_heads)))
    ∧ kv_head_mapping_of 2 4 = [0, 0, 0, 0, 1, 1, 1, 1] := by
  constructor
  · intro i hi
    have hmul : num_key_value_heads * (num_heads / num_key_value_heads)
        = num_heads := Nat.mul_div_cancel' hdvd
    have hi' : i < (List.range num_key_value_heads).length
        * (num_heads / num_key_value_heads) := by
      rw [List.length_range]
      omega
    rw [kv_head_mapping_of, repeatInterleave_getElem? _ _ i hi']
    have hidx : i / (num_heads / num_key_value_heads)
        < num_key_value_heads := by
      apply Nat.div_lt_of_lt_mul
      rw [Nat.mul_comm]
      omega
    simp [List.getElem?_range hidx]
  · rfl

/-- Witness for C5: with 8 query heads and 2 kv heads, query head 5 maps to
kv head `5 / 4 = 1`, and the full mapping is `[0, 0, 0, 0, 1, 1, 1, 1]`. -/
theorem claim_C5_witness :
    (kv_head_mapping_of 2 (8 / 2))[5]? = some (5 / (8 / 2))
    ∧ kv_head_mapping_of 2 4 = [0, 0, 0, 0, 1, 1, 1, 1] :=
  ⟨(claim_C5 8 2 ⟨4, rfl⟩).1 5 (by decide), (claim_C5 8 2 ⟨4, rfl⟩).2⟩

/-- A `filterMap` whose function is total on the list keeps the length. -/
theorem filterMap_length_of_total {α β : Type _} (g : α → Option β)
    (l : List α) (h : ∀ a ∈ l, (g a).isSome) :
    (l.filterMap g).length = l.length :=
  List.filterMap_length_eq_length.mpr h

/-- Positionally, a total `filterMap` applies the function elementwise. -/
theorem filterMap_getElem?_of_total {α β : Type _} (g : α → Option β) :
    ∀ (l : List α), (∀ a ∈ l, (g a).isSome) →
      ∀ (j : Nat) (a : α), l[j]? = some a → (l.filterMap g)[j]? = g a := by
  intro l
  induction l with
  | nil => intro _ j a hj; simp at hj
  | cons x l ih =>
    intro h j a hj
    have hx := h x (by simp)
    rcases hy : g x with _ | y
    · rw [hy] at hx; simp at hx
    · rw [List.filterMap_cons_some hy]
      match j, hj with
      | 0, hj =>
        simp at hj
        subst hj
        simp [hy]
      | (j + 1), hj =>
        simp at hj
        simpa using ih (fun a ha => h a (by simp [ha])) j a (by simpa using hj)

/-- Claim C8: the causal-LM forward returns logits for every input token when
no output-position indices are supplied; when indices are supplied, the head
projection covers exactly the selected positions, in order. -/
theorem claim_C8 {V L : Type} (hidden_states : List V) (lm_head : V → L) :
    (causal_lm_logits hidden_states lm_head none = hidden_states.map lm_head
      ∧ (causal_lm_logits hidden_states lm_head none).length
          = hidden_states.length)
    ∧ ∀ lm_head_indices : List Nat,
        (∀ i ∈ lm_head_indices, i < hidden_states.length) →
        ((causal_lm_logits hidden_states lm_head
            (some lm_head_indices)).length = lm_head_indices.length
          ∧ ∀ (j i : Nat), lm_head_indices[j]? = some i →
              (causal_lm_logits hidden_states lm_head
                (some lm_head_indices))[j]?
                = (hidden_states[i]?).map lm_head) := by
  constructor
  · exact ⟨rfl, by simp [causal_lm_logits]⟩
  · intro idx hvalid
    have htotal : ∀ i ∈ idx, (hidden_states[i]?).isSome := by
      intro i hi
      rw [List.getElem?_eq_getElem (hvalid i hi)]
      rfl
    constructor
    · simp [causal_lm_logits,
        filterMap_length_of_total (fun i => hidden_states[i]?) idx htotal]
    · intro j i hj
      have hpos := filterMap_getElem?_of_total
        (fun i => hidden_states[i]?) idx htotal j i hj
      simp [causal_lm_logits, List.getElem?_map, hpos]

/-- Witness for C8: selecting positions `[2, 0]` of a 3-token batch serves
exactly those two positions. -/
theorem claim_C8_witness :
    (causal_lm_logits [10, 20, 30] (fun v : ℕ => v + 1)
        (some [2, 0])).length = ([2, 0] : List Nat).length
    ∧ ∀ (j i : Nat), ([2, 0] : List Nat)[j]? = some i →
        (causal_lm_logits [10, 20, 30] (fun v : ℕ => v + 1) (some [2, 0]))[j]?
          = (([10, 20, 30] : List ℕ)[i]?).map (fun v : ℕ => v + 1) :=
  (claim_C8 [10, 20, 30] (fun v : ℕ => v + 1)).2 [2, 0] (by decide)

/-- Adjacent Python slices concatenate to the enclosing slice. -/
theorem pySlice_append {α : Type _} (xs : List α) (a b c : Nat)
    (hab : a ≤ b) (hbc : b ≤ c) :
    pySlice xs a b ++ pySlice xs b c = pySlice xs a c := by
  have hd : (xs.drop a).drop (b - a) = xs.drop b := by
    rw [List.drop_drop]
    congr 1
    omega
  unfold pySlice
  have h1 : c - a = (b - a) + (c - b) := by omega
  rw [h1, List.take_add, hd]

/-- Slicing `[off + r*b, off + (r+1)*b)` for every rank `r < n` and
concatenating in rank order yields the contiguous slice `[off, off + n*b)`. -/
theorem pySlice_blocks {α : Type _} (xs : List α) (off b : Nat) :
    ∀ n, ((List.range n).flatMap fun r =>
        pySlice xs (off + r * b) (off + (r + 1) * b))
      = pySlice xs off (off + n * b) := by
  intro n
  induction n with
  | zero => simp [pySlice]
  | succ n ih =>
    rw [List.range_succ, List.flatMap_append, ih]
    simp only [List.flatMap_cons, List.flatMap_nil, List.append_nil]
    rw [pySlice_append xs off (off + n * b) (off + (n + 1) * b)
      (by omega)
      (Nat.add_le_add_left (Nat.mul_le_mul_right b (Nat.le_succ n)) off)]

/-- A slice starting at 0 is a plain `take`. -/
theorem pySlice_zero {α : Type _} (xs : List α) (c : Nat) :
    pySlice xs 0 c = xs.take c := by
  simp [pySlice]

/-- Claim C7: the fused-attention load fails with an assertion error whenever
`q_size` or `kv_size` is not evenly divisible by the world size (no slice is
produced); under divisibility, shard `r` takes exactly rows
`[r*q_block, (r+1)*q_block)` of the query segment and the analogously offset
key/value slices at offsets `q_size` and `q_size + kv_size`. -/
theorem claim_C7 {α : Type} (config : ShellConfig) (w : List (List α))
    (bvec : List α) (withBias : Bool) (q_size kv_size : Nat)
    (pg : ProcessGroup) (hws : 0 < pg.size) :
    (¬(q_size % pg.size = 0 ∧ kv_size % pg.size = 0) →
      _load_attention config w bvec withBias q_size kv_size pg
        = PyResult.raised PyError.assertionError)
    ∧ (q_size % pg.size = 0 → kv_size % pg.size = 0 →
        config.transpose = false →
      _load_attention config w bvec withBias q_size kv_size pg
        = PyResult.returned
          { weight :=
              pySlice w (pg.rank * (q_size / pg.size))
                  ((pg.rank + 1) * (q_size / pg.size))
                ++ pySlice w (q_size + pg.rank * (kv_size / pg.size))
                  (q_size + (pg.rank + 1) * (kv_size / pg.size))
                ++ pySlice w (q_size + kv_size + pg.rank * (kv_size / pg.size))
                  (q_size + kv_size + (pg.rank + 1) * (kv_size / pg.size))
            bias :=
              if withBias then
                some (attn_bias_tensor bvec q_size kv_size pg.size pg.rank)
              else none }) := by
  constructor
  · intro hnot
    by_cases hq : q_size % pg.size = 0
    · have hkv : kv_size % pg.size ≠ 0 := fun hk => hnot ⟨hq, hk⟩
      simp [_load_attention, hq, hkv]
    · simp [_load_attention, hq]
  · intro hq hkv hT
    simp [_load_attention, hq, hkv, attn_q_tensor, attn_k_tensor,
      attn_v_tensor, hT, rowSlice]

/-- Witness for C7: over 2 shards, rank 1 of a 6-row fused weight
(q_size = kv_size = 2) takes rows 1, 3 and 5; with q_size = 3 the load
raises the assertion error. -/
theorem claim_C7_witness :
    (_load_attention
        { vocab_size := 4, hidden_size := 4, intermediate_size := 4
          num_hidden_layers := 1, num_attention_heads := 2
          num_key_value_heads := 2, hidden_act := "gelu"
          quantize := none, transpose := false }
        [[(10 : ℤ)], [11], [20], [21], [30], [31]] [] false 3 2 ⟨1, 2⟩
      = PyResult.raised PyError.assertionError)
    ∧ (_load_attention
        { vocab_size := 4, hidden_size := 4, intermediate_size := 4
          num_hidden_layers := 1, num_attention_heads := 2
          num_key_value_heads := 2, hidden_act := "gelu"
          quantize := none, transpose := false }
        [[(10 : ℤ)], [11], [20], [21], [30], [31]] [] false 2 2 ⟨1, 2⟩
      = PyResult.returned
          { weight :=
              pySlice [[(10 : ℤ)], [11], [20], [21], [30], [31]]
                  (1 * (2 / 2)) ((1 + 1) * (2 / 2))
                ++ pySlice [[(10 : ℤ)], [11], [20], [21], [30], [31]]
                  (2 + 1 * (2 / 2)) (2 + (1 + 1) * (2 / 2))
                ++ pySlice [[(10 : ℤ)], [11], [20], [21], [30], [31]]
                  (2 + 2 + 1 * (2 / 2)) (2 + 2 + (1 + 1) * (2 / 2))
            bias := none }) :=
  ⟨(claim_C7 _ _ [] false 3 2 ⟨1, 2⟩ (by decide)).1 (by decide),
   (claim_C7 _ _ [] false 2 2 ⟨1, 2⟩ (by decide)).2 (by decide) (by decide) rfl⟩

/-- Horizontally concatenating matrices that are all rowwise images of the
same matrix `w` concatenates rowwise. -/
theorem hcatAll_map {α β : Type _} (w : List (List α)) :
    ∀ fs : List (List α → List β),
      hcatAll (fs.map fun f => w.map f) w.length
        = w.map (fun row => fs.flatMap (fun f => f row)) := by
  intro fs
  induction fs with
  | nil =>
    simp only [List.map_nil, hcatAll, List.foldr_nil, List.flatMap_nil]
    rw [← List.map_const']
  | cons f fs ih =>
    have step : hcatAll ((f :: fs).map fun g => w.map g) w.length
        = hcat2 (w.map f) (hcatAll (fs.map fun g => w.map g) w.length) := rfl
    rw [step, ih]
    unfold hcat2
    rw [List.zipWith_map, List.zipWith_same]
    simp only [List.flatMap_cons]

/-- Rank blocks starting at offset 0 concatenate to the initial slice. -/
theorem pySlice_blocks0 {α : Type _} (xs : List α) (b n : Nat) :
    ((List.range n).flatMap fun r => pySlice xs (r * b) ((r + 1) * b))
      = pySlice xs 0 (n * b) := by
  have h := pySlice_blocks xs 0 b n
  simpa using h

/-- Claim C1: under either storage layout, with `q_size` and `kv_size` evenly
divisible by `world_size`, concatenating the per-shard query blocks, key
blocks and value blocks produced by `_load_attention` across all ranks
(in rank order, along the sliced axis) reproduces the original unsharded
fused weight exactly. -/
theorem claim_C1 {α : Type} (config : ShellConfig) (w : List (List α))
    (q_size kv_size world_size : Nat) (hws : 0 < world_size)
    (hq : q_size % world_size = 0) (hkv : kv_size % world_size = 0) :
    (config.transpose = false → w.length = q_size + 2 * kv_size →
      ((List.range world_size).flatMap fun r =>
          attn_q_tensor config w q_size world_size r)
        ++ ((List.range world_size).flatMap fun r =>
          attn_k_tensor config w q_size kv_size world_size r)
        ++ ((List.range world_size).flatMap fun r =>
          attn_v_tensor config w q_size kv_size world_size r) = w)
    ∧ (config.transpose = true → (∀ row ∈ w, row.length = q_size + 2 * kv_size) →
      hcatAll
        (((List.range world_size).map fun r =>
            attn_q_tensor config w q_size world_size r)
          ++ ((List.range world_size).map fun r =>
            attn_k_tensor config w q_size kv_size world_size r)
          ++ ((List.range world_size).map fun r =>
            attn_v_tensor config w q_size kv_size world_size r))
        w.length = w) := by
  have hqd : world_size * (q_size / world_size) = q_size :=
    Nat.mul_div_cancel' (Nat.dvd_of_mod_eq_zero hq)
  have hkvd : world_size * (kv_size / world_size) = kv_size :=
    Nat.mul_div_cancel' (Nat.dvd_of_mod_eq_zero hkv)
  constructor
  · intro hT hlen
    simp only [attn_q_tensor, attn_k_tensor, attn_v_tensor, hT,
      Bool.false_eq_true, if_false, rowSlice]
    rw [pySlice_blocks0 w (q_size / world_size) world_size,
      pySlice_blocks w q_size (kv_size / world_size) world_size,
      pySlice_blocks w (q_size + kv_size) (kv_size / world_size) world_size,
      hqd, hkvd]
    rw [pySlice_append w 0 q_size (q_size + kv_size) (by omega) (by omega)]
    rw [pySlice_append w 0 (q_size + kv_size) (q_size + kv_size + kv_size)
      (by omega) (by omega)]
    rw [pySlice_zero]
    have : q_size + kv_size + kv_size = w.length := by omega
    rw [this, List.take_length]
  · intro hT hrows
    simp only [attn_q_tensor, attn_k_tensor, attn_v_tensor, hT, if_true,
      colSlice]
    have hform :
        (((List.range world_size).map fun r =>
            w.map fun row => pySlice row (r * (q_size / world_size))
              ((r + 1) * (q_size / world_size)))
          ++ ((List.range world_size).map fun r =>
            w.map fun row =>
              pySlice row (q_size + r * (kv_size / world_size))
                (q_size + (r + 1) * (kv_size / world_size)))
          ++ ((List.range world_size).map fun r =>
            w.map fun row =>
              pySlice row (q_size + kv_size + r * (kv_size / world_size))
                (q_size + kv_size + (r + 1) * (kv_size / world_size))))
        = ((((List.range world_size).map fun r =>
              fun row : List α => pySlice row (r * (q_size / world_size))
                ((r + 1) * (q_size / world_size)))
            ++ ((List.range world_size).map fun r =>
              fun row : List α =>
                pySlice row (q_size + r * (kv_size / world_size))
                  (q_size + (r + 1) * (kv_size / world_size)))
            ++ ((List.range world_size).map fun r =>
              fun row : List α =>
                pySlice row (q_size + kv_size + r * (kv_size / world_size))
                  (q_size + kv_size + (r + 1) * (kv_size / world_size)))).map
            fun f => w.map f) := by
      simp [List.map_map, Function.comp_def]
    rw [hform, hcatAll_map w]
    conv_rhs => rw [← List.map_id w]
    apply List.map_congr_left
    intro row hrow
    simp only [List.flatMap_append, List.flatMap_map]
    rw [pySlice_blocks0 row (q_size / world_size) world_size,
      pySlice_blocks row q_size (kv_size / world_size) world_size,
      pySlice_blocks row (q_size + kv_size) (kv_size / world_size) world_size,
      hqd, hkvd]
    rw [pySlice_append row 0 q_size (q_size + kv_size) (by omega) (by omega)]
    rw [pySlice_append row 0 (q_size + kv_size) (q_size + kv_size + kv_size)
      (by omega) (by omega)]
    rw [pySlice_zero]
    have hlen : q_size + kv_size + kv_size = row.length := by
      have := hrows row hrow
      omega
    rw [hlen, List.take_length, id]

/-- Witness for C1: with 2 shards, `q_size = kv_size = 2`, the rank-0 and
rank-1 blocks concatenate back to the fused 6-row weight (non-transposed
layout) and to the fused 6-column weight (transposed layout). -/
theorem claim_C1_witness :
    (((List.range 2).flatMap fun r =>
        attn_q_tensor
          { vocab_size := 4, hidden_size := 4, intermediate_size := 4
            num_hidden_layers := 1, num_attention_heads := 2
            num_key_value_heads := 2, hidden_act := "gelu"
            quantize := none, transpose := false }
          [[(10 : ℤ)], [11], [20], [21], [30], [31]] 2 2 r)
      ++ ((List.range 2).flatMap fun r =>
        attn_k_tensor
          { vocab_size := 4, hidden_size := 4, intermediate_size := 4
            num_hidden_layers := 1, num_attention_heads := 2
            num_key_value_heads := 2, hidden_act := "gelu"
            quantize := none, transpose := false }
          [[(10 : ℤ)], [11], [20], [21], [30], [31]] 2 2 2 r)
      ++ ((List.range 2).flatMap fun r =>
        attn_v_tensor
          { vocab_size := 4, hidden_size := 4, intermediate_size := 4
            num_hidden_layers := 1, num_attention_heads := 2
            num_key_value_heads := 2, hidden_act := "gelu"
            quantize := none, transpose := false }
          [[(10 : ℤ)], [11], [20], [21], [30], [31]] 2 2 2 r)
      = [[(10 : ℤ)], [11], [20], [21], [30], [31]])
    ∧ hcatAll
        (((List.range 2).map fun r =>
          attn_q_tensor
            { vocab_size := 4, hidden_size := 4, intermediate_size := 4
              num_hidden_layers := 1, num_attention_heads := 2
              num_key_value_heads := 2, hidden_act := "gelu"
              quantize := none, transpose := true }
            [[(10 : ℤ), 11, 20, 21, 30, 31]] 2 2 r)
        ++ ((List.range 2).map fun r =>
          attn_k_tensor
            { vocab_size := 4, hidden_size := 4, intermediate_size := 4
              num_hidden_layers := 1, num_attention_heads := 2
              num_key_value_heads := 2, hidden_act := "gelu"
              quantize := none, transpose := true }
            [[(10 : ℤ), 11, 20, 21, 30, 31]] 2 2 2 r)
        ++ ((List.range 2).map fun r =>
          attn_v_tensor
            { vocab_size := 4, hidden_size := 4, intermediate_size := 4
              num_hidden_layers := 1, num_attention_heads := 2
              num_key_value_heads := 2, hidden_act := "gelu"
              quantize := none, transpose := true }
            [[(10 : ℤ), 11, 20, 21, 30, 31]] 2 2 2 r))
        1 = [[(10 : ℤ), 11, 20, 21, 30, 31]] :=
  ⟨(claim_C1 _ [[(10 : ℤ)], [11], [20], [21], [30], [31]] 2 2 2 (by decide)
      (by decide) (by decide)).1 rfl (by decide),
   (claim_C1 _ [[(10 : ℤ), 11, 20, 21, 30, 31]] 2 2 2 (by decide)
      (by decide) (by decide)).2 rfl (by decide)⟩

end FlashShell
